import Mathlib

/-!
Verification of the `jokyv/scripts` repository.

This file shallowly embeds the pure logic of the repository's scripts:

* `bin/flake-freshness.py` (namespace `FF`): the string-equality version
  comparator and the TTL file cache.
* `nix_flake_health/main.py` (namespace `NFH`): the semantic version
  comparator (`parse_version` / `compare_versions`) and its TTL file cache.
* `bin/bookmarks.py` (namespace `Bookmarks`): Brave JSON bookmark extraction
  and the Firefox `places.sqlite` query, plus the exit-code behaviour of
  `main`.
* `bin/git_util.py` (namespace `GitUtil`): the batch git helpers
  (`push_all_git_dirs`, `auto_commit`, `commit_workflow`) as traces of the
  git subprocess invocations they perform.

Stateful parts (the file cache, subprocess calls) are modelled by explicit
state passing / command traces; machine-independent Python integers and
strings map to `Int`/`Nat` and `String`.
-/

namespace FF

/-- `CONFIG.cache["ttl"]` in flake-freshness.py: `{"ttl": 3600}  # 1 hour`. -/
def ttl : Int := 3600

/-- `get_cache_dir`: `Path.home() / ".cache" / "flake-freshness"`.
The home directory is rendered as the literal `~`. -/
def get_cache_dir : String := "~/.cache/flake-freshness"

/-- The `safe_key` computed inside `get_cache_path`:
`key.replace('/', '_').replace(':', '_')`.  Python `str.replace` with a
single-character pattern and single-character replacement is exactly a
character map, which is how it is rendered here. -/
def safe_key (key : String) : String :=
  String.mk ((key.toList.map (fun c => if c = '/' then '_' else c)).map
    (fun c => if c = ':' then '_' else c))

/-- `get_cache_path(key)`: `get_cache_dir() / f"{safe_key}.json"`. -/
def get_cache_path (key : String) : String :=
  get_cache_dir ++ "/" ++ safe_key key ++ ".json"

/-- A cache file on disk: its JSON content (`none` models an unparseable
file, on which `json.load` raises) and its `st_mtime` in seconds. -/
structure CacheEntry where
  content : Option String
  mtime : Int

/-- The file system visible to the cache: a partial map from paths to files. -/
def FS : Type := String → Option CacheEntry

/-- The file system with no cache files. -/
def emptyFS : FS := fun _ => none

/-- `is_cache_valid(cache_path)`: the file exists and
`(now - st_mtime).total_seconds() < CONFIG.cache["ttl"]`.  Timestamps are
modelled in whole seconds as `Int`. -/
def is_cache_valid (fs : FS) (now : Int) (cache_path : String) : Bool :=
  match fs cache_path with
  | none => false
  | some entry => decide (now - entry.mtime < ttl)

/-- `read_cache(key)`: if the cache file is valid, `json.load` it (returning
`None` when the file is unreadable), otherwise return `None`. -/
def read_cache (fs : FS) (now : Int) (key : String) : Option String :=
  if is_cache_valid fs now (get_cache_path key) then
    match fs (get_cache_path key) with
    | some entry => entry.content
    | none => none
  else none

/-- `write_cache(key, value)`: `json.dump(value, f)` into the cache path,
stamping the file with the current time `now`. -/
def write_cache (fs : FS) (key : String) (value : String) (now : Int) : FS :=
  fun p => if p = get_cache_path key then some ⟨some value, now⟩ else fs p

/-- `compare_versions(current, latest)` in flake-freshness.py: `"unknown"`
when either side is `"not found"`, `"equal"` on string equality, otherwise
`"outdated"`. -/
def compare_versions (current latest : String) : String :=
  if current = "not found" ∨ latest = "not found" then "unknown"
  else if current = latest then "equal"
  else "outdated"

end FF

namespace NFH

/-- `CACHE_TTL_HOURS = 1` in nix_flake_health/main.py. -/
def CACHE_TTL_HOURS : Int := 1

/-- `CONFIG.cache["ttl"] = CACHE_TTL_HOURS * 3600`. -/
def ttl : Int := CACHE_TTL_HOURS * 3600

/-- `get_cache_dir`: `Path.home() / ".cache" / "nix-flake-health"`. -/
def get_cache_dir : String := "~/.cache/nix-flake-health"

/-- The `safe_key` computed inside `get_cache_path`:
`key.replace("/", "_").replace(":", "_")` rendered as a character map. -/
def safe_key (key : String) : String :=
  String.mk ((key.toList.map (fun c => if c = '/' then '_' else c)).map
    (fun c => if c = ':' then '_' else c))

/-- `get_cache_path(key)`: `get_cache_dir() / f"{safe_key}.json"`. -/
def get_cache_path (key : String) : String :=
  get_cache_dir ++ "/" ++ safe_key key ++ ".json"

/-- A cache file on disk, as in `FF.CacheEntry`. -/
structure CacheEntry where
  content : Option String
  mtime : Int

/-- The file system visible to the cache. -/
def FS : Type := String → Option CacheEntry

/-- The file system with no cache files. -/
def emptyFS : FS := fun _ => none

/-- `is_cache_valid(cache_path)` in nix_flake_health/main.py. -/
def is_cache_valid (fs : FS) (now : Int) (cache_path : String) : Bool :=
  match fs cache_path with
  | none => false
  | some entry => decide (now - entry.mtime < ttl)

/-- `read_cache(key)` in nix_flake_health/main.py. -/
def read_cache (fs : FS) (now : Int) (key : String) : Option String :=
  if is_cache_valid fs now (get_cache_path key) then
    match fs (get_cache_path key) with
    | some entry => entry.content
    | none => none
  else none

/-- `write_cache(key, value)` in nix_flake_health/main.py. -/
def write_cache (fs : FS) (key : String) (value : String) (now : Int) : FS :=
  fun p => if p = get_cache_path key then some ⟨some value, now⟩ else fs p

/-- The longest prefix of the character list matched by the regex
`^\d+(?:\.\d+)*` of `parse_version`, assuming the first character is a
digit: digits are consumed greedily, and a `'.'` is consumed only when
followed by a digit. -/
def scanNum : List Char → List Char
  | [] => []
  | c :: cs =>
    if c.isDigit then c :: scanNum cs
    else if c = '.' then
      match cs with
      | [] => []
      | d :: _ => if d.isDigit then c :: scanNum cs else []
    else []

/-- `numeric_part.split('.')` on the matched characters. -/
def splitDotGroups : List Char → List (List Char)
  | [] => [[]]
  | c :: rest =>
    if c = '.' then [] :: splitDotGroups rest
    else
      match splitDotGroups rest with
      | g :: gs => (c :: g) :: gs
      | [] => [[c]]

/-- Python `int` applied to a string of decimal digits. -/
def natOfDigits (l : List Char) : Nat :=
  l.foldl (fun a c => 10 * a + (c.toNat - 48)) 0

/-- `parse_version(version_str)`: match `^(\d+(?:\.\d+)*)`; on success,
return the dot-separated numeric parts as integers together with the
remaining string, otherwise `([], version_str)`. -/
def parse_version (s : String) : List Nat × String :=
  match s.toList with
  | [] => ([], s)
  | c :: _ =>
    if c.isDigit then
      let m := scanNum s.toList
      ((splitDotGroups m).map natOfDigits, String.mk (s.toList.drop m.length))
    else ([], s)

/-- The `for c, l in zip(current_parts, latest_parts)` loop of
`compare_versions`: first strict inequality decides, equal entries
continue. -/
def cmpZip : List (Nat × Nat) → Ordering
  | [] => Ordering.eq
  | (c, l) :: rest =>
    if c < l then Ordering.lt
    else if l < c then Ordering.gt
    else cmpZip rest

/-- The padding-and-zipping of `compare_versions`: both numeric-part lists
are padded with zeros to the longer length and zipped. -/
def padZip (cp lp : List Nat) : List (Nat × Nat) :=
  (cp ++ List.replicate (max cp.length lp.length - cp.length) 0).zip
    (lp ++ List.replicate (max cp.length lp.length - lp.length) 0)

/-- The semantic-comparison branch of `compare_versions` (reached when the
strings differ and neither is `"not found"`): if both parses produced
numeric parts, compare them pairwise after padding, falling back to the
suffix comparison, otherwise return the `"outdated"` fallback. -/
def semcmp (current latest : String) : String :=
  match parse_version current, parse_version latest with
  | (current_parts, current_suffix), (latest_parts, latest_suffix) =>
    if current_parts ≠ [] ∧ latest_parts ≠ [] then
      match cmpZip (padZip current_parts latest_parts) with
      | Ordering.lt => "outdated"
      | Ordering.gt => "equal"
      | Ordering.eq =>
        if current_suffix ≠ latest_suffix then "outdated" else "equal"
    else "outdated"

/-- `compare_versions(current, latest)` in nix_flake_health/main.py. -/
def compare_versions (current latest : String) : String :=
  if current = "not found" ∨ latest = "not found" then "unknown"
  else if current = latest then "equal"
  else semcmp current latest

end NFH

/-! ### Helper lemmas about the NFH semantic comparator -/

theorem NFH.semcmp_eq_or (current latest : String) :
    NFH.semcmp current latest = "outdated" ∨ NFH.semcmp current latest = "equal" := by
  unfold NFH.semcmp
  split
  split
  · split
    · exact Or.inl rfl
    · exact Or.inr rfl
    · split
      · exact Or.inl rfl
      · exact Or.inr rfl
  · exact Or.inl rfl

theorem NFH.cmpZip_self (l : List Nat) : NFH.cmpZip (l.zip l) = Ordering.eq := by
  induction l with
  | nil => rfl
  | cons x xs ih =>
    show NFH.cmpZip ((x, x) :: xs.zip xs) = Ordering.eq
    simp only [NFH.cmpZip]
    rw [if_neg (lt_irrefl x), if_neg (lt_irrefl x)]
    exact ih

theorem NFH.padZip_self (l : List Nat) : NFH.padZip l l = l.zip l := by
  simp [NFH.padZip]

/-- C1 counterexample: on the pair ("2.0", "1.9") the two comparators
disagree — flake-freshness.py returns "outdated" (plain string inequality)
while nix_flake_health/main.py returns "equal" (its semantic comparison
treats a newer current version as up to date). -/
theorem c1_compare_versions_disagree :
    FF.compare_versions "2.0" "1.9" = "outdated" ∧
    NFH.compare_versions "2.0" "1.9" = "equal" ∧
    FF.compare_versions "2.0" "1.9" ≠ NFH.compare_versions "2.0" "1.9" := by
  refine ⟨rfl, rfl, ?_⟩
  decide

/-- C1 (amended): for every pair of version strings, either the two
comparators return the same status, or flake-freshness.py returns
"outdated" while nix_flake_health/main.py returns "equal"; in particular
they always agree on "unknown" and whenever flake-freshness.py reports
"equal". -/
theorem c1_compare_versions_agreement (current latest : String) :
    FF.compare_versions current latest = NFH.compare_versions current latest ∨
    (FF.compare_versions current latest = "outdated" ∧
      NFH.compare_versions current latest = "equal") := by
  by_cases h1 : current = "not found" ∨ latest = "not found"
  · left
    simp [FF.compare_versions, NFH.compare_versions, h1]
  · by_cases h2 : current = latest
    · left
      simp [FF.compare_versions, NFH.compare_versions, h1, h2]
    · have hff : FF.compare_versions current latest = "outdated" := by
        simp [FF.compare_versions, h1, h2]
      have hn : NFH.compare_versions current latest = NFH.semcmp current latest := by
        simp [NFH.compare_versions, h1, h2]
      rcases NFH.semcmp_eq_or current latest with h | h
      · left
        rw [hff, hn, h]
      · right
        exact ⟨hff, hn ▸ h⟩

/-- C4: `compare_versions(v, v)` returns "equal" for every version string
`v` other than "not found", in both flake-freshness.py and
nix_flake_health/main.py (both short-circuit on string equality). -/
theorem c4_compare_versions_refl (v : String) (h : v ≠ "not found") :
    FF.compare_versions v v = "equal" ∧ NFH.compare_versions v v = "equal" := by
  constructor <;> simp [FF.compare_versions, NFH.compare_versions, h]

/-- C4 witness at v = "1.2.0". -/
theorem c4_compare_versions_refl_witness :
    FF.compare_versions "1.2.0" "1.2.0" = "equal" ∧
    NFH.compare_versions "1.2.0" "1.2.0" = "equal" :=
  c4_compare_versions_refl "1.2.0" (by decide)

/-- C5: `compare_versions("1.2.0", "1.3.0")` returns "outdated" in both
tools, and whenever either argument is "not found" both tools return
"unknown". -/
theorem c5_compare_versions_outdated_unknown :
    (FF.compare_versions "1.2.0" "1.3.0" = "outdated" ∧
      NFH.compare_versions "1.2.0" "1.3.0" = "outdated") ∧
    ∀ current latest : String,
      current = "not found" ∨ latest = "not found" →
        FF.compare_versions current latest = "unknown" ∧
        NFH.compare_versions current latest = "unknown" := by
  refine ⟨⟨rfl, rfl⟩, ?_⟩
  intro c l h
  constructor <;> simp [FF.compare_versions, NFH.compare_versions, h]

/-- C5 witness: the "not found" clause instantiated at
("not found", "1.0"). -/
theorem c5_compare_versions_outdated_unknown_witness :
    FF.compare_versions "not found" "1.0" = "unknown" ∧
    NFH.compare_versions "not found" "1.0" = "unknown" :=
  c5_compare_versions_outdated_unknown.2 "not found" "1.0" (Or.inl rfl)

/-- C8: in nix_flake_health/main.py, when both version strings parse to
nonempty numeric parts and the zero-padded numeric parts of `current`
compare strictly greater than those of `latest`, `compare_versions`
returns "equal" — a current version newer than upstream is reported as up
to date. -/
theorem c8_nfh_current_newer_reported_equal
    (current latest : String) (cp lp : List Nat) (cs ls : String)
    (hc : NFH.parse_version current = (cp, cs))
    (hl : NFH.parse_version latest = (lp, ls))
    (hcp : cp ≠ []) (hlp : lp ≠ [])
    (hgt : NFH.cmpZip (NFH.padZip cp lp) = Ordering.gt) :
    NFH.compare_versions current latest = "equal" := by
  have hnc : current ≠ "not found" := by
    intro h
    subst h
    have h1 : (NFH.parse_version "not found").1 = cp := congrArg Prod.fst hc
    rw [show (NFH.parse_version "not found").1 = [] from rfl] at h1
    exact hcp h1.symm
  have hnl : latest ≠ "not found" := by
    intro h
    subst h
    have h1 : (NFH.parse_version "not found").1 = lp := congrArg Prod.fst hl
    rw [show (NFH.parse_version "not found").1 = [] from rfl] at h1
    exact hlp h1.symm
  have hne : current ≠ latest := by
    intro h
    subst h
    rw [hc, Prod.mk.injEq] at hl
    obtain ⟨h3, _⟩ := hl
    rw [← h3, NFH.padZip_self, NFH.cmpZip_self] at hgt
    exact absurd hgt (by decide)
  unfold NFH.compare_versions
  rw [if_neg (by push_neg; exact ⟨hnc, hnl⟩), if_neg hne]
  simp only [NFH.semcmp, hc, hl]
  rw [if_pos ⟨hcp, hlp⟩, hgt]

/-- C8 witness at current = "3.0", latest = "2.9". -/
theorem c8_nfh_current_newer_reported_equal_witness :
    NFH.compare_versions "3.0" "2.9" = "equal" :=
  c8_nfh_current_newer_reported_equal "3.0" "2.9" [3, 0] [2, 9] "" "" rfl rfl
    (by decide) (by decide) (by decide)

/-- C2: cache round-trip in both tools — `write_cache(k, v)` followed by
`read_cache(k)` returns `v` while the cache file's age is below the TTL of
3600 seconds, and returns `None` once the age reaches or exceeds the TTL. -/
theorem c2_cache_roundtrip (fs1 : FF.FS) (fs2 : NFH.FS) (k v : String)
    (t now : Int) :
    (now - t < 3600 →
      FF.read_cache (FF.write_cache fs1 k v t) now k = some v ∧
      NFH.read_cache (NFH.write_cache fs2 k v t) now k = some v) ∧
    (3600 ≤ now - t →
      FF.read_cache (FF.write_cache fs1 k v t) now k = none ∧
      NFH.read_cache (NFH.write_cache fs2 k v t) now k = none) := by
  constructor
  · intro h
    constructor
    · simp [FF.read_cache, FF.is_cache_valid, FF.write_cache, FF.ttl, h]
    · simp [NFH.read_cache, NFH.is_cache_valid, NFH.write_cache, NFH.ttl,
        NFH.CACHE_TTL_HOURS, h]
  · intro h
    have h' : ¬(now - t < 3600) := not_lt.mpr h
    constructor
    · simp [FF.read_cache, FF.is_cache_valid, FF.write_cache, FF.ttl, h']
    · simp [NFH.read_cache, NFH.is_cache_valid, NFH.write_cache, NFH.ttl,
        NFH.CACHE_TTL_HOURS, h']

/-- C2 witness: a concrete round-trip for key "pkg" and value "1.0", read
at age 10 seconds (inside the TTL) and at age 3600 seconds (expired). -/
theorem c2_cache_roundtrip_witness :
    FF.read_cache (FF.write_cache FF.emptyFS "pkg" "1.0" 0) 10 "pkg" = some "1.0" ∧
    NFH.read_cache (NFH.write_cache NFH.emptyFS "pkg" "1.0" 0) 10 "pkg" = some "1.0" ∧
    FF.read_cache (FF.write_cache FF.emptyFS "pkg" "1.0" 0) 3600 "pkg" = none ∧
    NFH.read_cache (NFH.write_cache NFH.emptyFS "pkg" "1.0" 0) 3600 "pkg" = none := by
  obtain ⟨a, b⟩ :=
    (c2_cache_roundtrip FF.emptyFS NFH.emptyFS "pkg" "1.0" 0 10).1 (by decide)
  obtain ⟨c, d⟩ :=
    (c2_cache_roundtrip FF.emptyFS NFH.emptyFS "pkg" "1.0" 0 3600).2 (by decide)
  exact ⟨a, b, c, d⟩

/-- C9: the key-to-path mapping of `get_cache_path` is not injective — the
distinct keys "a/b" and "a_b" map to the same cache file in both tools, so
writing under one key is read back under the other. -/
theorem c9_cache_key_collision :
    ("a/b" : String) ≠ "a_b" ∧
    FF.get_cache_path "a/b" = FF.get_cache_path "a_b" ∧
    NFH.get_cache_path "a/b" = NFH.get_cache_path "a_b" ∧
    FF.read_cache (FF.write_cache FF.emptyFS "a/b" "1.0" 0) 0 "a_b" = some "1.0" ∧
    NFH.read_cache (NFH.write_cache NFH.emptyFS "a/b" "1.0" 0) 0 "a_b" = some "1.0" := by
  exact ⟨by decide, rfl, rfl, rfl, rfl⟩

namespace Bookmarks

/-! JSON values as produced by `json.load` on Brave's Bookmarks file.
Object fields and array items are kept in document order; `json.load`
yields objects with unique keys (on duplicates the last wins), so field
lookup below takes the first match. -/
mutual

inductive JSON where
  | null : JSON
  | bool (b : Bool) : JSON
  | num (n : Int) : JSON
  | str (s : String) : JSON
  | arr (items : JSONList) : JSON
  | obj (fields : JSONFields) : JSON

inductive JSONList where
  | nil : JSONList
  | cons (hd : JSON) (tl : JSONList) : JSONList

inductive JSONFields where
  | nil : JSONFields
  | cons (key : String) (val : JSON) (tl : JSONFields) : JSONFields

end

/-- Python `node[key]` / `key in node` on a JSON object. -/
def lookupField : JSONFields → String → Option JSON
  | JSONFields.nil, _ => none
  | JSONFields.cons k v rest, key =>
    if k = key then some v else lookupField rest key

/-- The appending step of `extract_bookmarks` on a dict node:
`if "type" in node and node["type"] == "url": if "url" in node and
"name" in node: bookmarks.append((node["name"], node["url"]))`. -/
def urlEntry (fields : JSONFields) : List (JSON × JSON) :=
  match lookupField fields "type" with
  | some (JSON.str t) =>
    if t = "url" then
      match lookupField fields "url", lookupField fields "name" with
      | some u, some n => [(n, u)]
      | _, _ => []
    else []
  | _ => []

/-! `extract_bookmarks(node)` of bookmarks.py, with the `bookmarks` list
the closure appends to passed as the accumulator `acc`: a dict node first
appends its own (name, url) pair when it is a bookmark, then recurses into
`node.values()` in order; a list node recurses into its items in order. -/
mutual

def extract_bookmarks : JSON → List (JSON × JSON) → List (JSON × JSON)
  | JSON.obj fields, acc => extractFields fields (acc ++ urlEntry fields)
  | JSON.arr items, acc => extractItems items acc
  | _, acc => acc

def extractFields : JSONFields → List (JSON × JSON) → List (JSON × JSON)
  | JSONFields.nil, acc => acc
  | JSONFields.cons _ v rest, acc => extractFields rest (extract_bookmarks v acc)

def extractItems : JSONList → List (JSON × JSON) → List (JSON × JSON)
  | JSONList.nil, acc => acc
  | JSONList.cons v rest, acc => extractItems rest (extract_bookmarks v acc)

end

/-- The Brave branch of `get_browser_bookmarks`: start from an empty
`bookmarks` list, run `extract_bookmarks(data)`, return the list. -/
def get_browser_bookmarks_brave (data : JSON) : List (JSON × JSON) :=
  extract_bookmarks data []

/-! Specification of Brave extraction, following the spec's words: the
(name, url) pairs of every node whose "type" field equals "url" and which
has both "name" and "url" keys, in depth-first traversal order. -/
mutual

def bravePairs : JSON → List (JSON × JSON)
  | JSON.obj fields => urlEntry fields ++ bravePairsFields fields
  | JSON.arr items => bravePairsItems items
  | _ => []

def bravePairsFields : JSONFields → List (JSON × JSON)
  | JSONFields.nil => []
  | JSONFields.cons _ v rest => bravePairs v ++ bravePairsFields rest

def bravePairsItems : JSONList → List (JSON × JSON)
  | JSONList.nil => []
  | JSONList.cons v rest => bravePairs v ++ bravePairsItems rest

end

mutual

theorem extract_bookmarks_eq : (n : JSON) → (acc : List (JSON × JSON)) →
    extract_bookmarks n acc = acc ++ bravePairs n
  | JSON.null, acc => by simp [extract_bookmarks, bravePairs]
  | JSON.bool b, acc => by simp [extract_bookmarks, bravePairs]
  | JSON.num m, acc => by simp [extract_bookmarks, bravePairs]
  | JSON.str s, acc => by simp [extract_bookmarks, bravePairs]
  | JSON.arr items, acc => by
    simp only [extract_bookmarks, bravePairs]
    exact extractItems_eq items acc
  | JSON.obj fields, acc => by
    simp only [extract_bookmarks, bravePairs]
    rw [extractFields_eq fields (acc ++ urlEntry fields), List.append_assoc]

theorem extractFields_eq : (fs : JSONFields) → (acc : List (JSON × JSON)) →
    extractFields fs acc = acc ++ bravePairsFields fs
  | JSONFields.nil, acc => by simp [extractFields, bravePairsFields]
  | JSONFields.cons k v rest, acc => by
    simp only [extractFields, bravePairsFields]
    rw [extract_bookmarks_eq v acc, extractFields_eq rest, List.append_assoc]

theorem extractItems_eq : (xs : JSONList) → (acc : List (JSON × JSON)) →
    extractItems xs acc = acc ++ bravePairsItems xs
  | JSONList.nil, acc => by simp [extractItems, bravePairsItems]
  | JSONList.cons v rest, acc => by
    simp only [extractItems, bravePairsItems]
    rw [extract_bookmarks_eq v acc, extractItems_eq rest, List.append_assoc]

end

/-- A row of Firefox's `moz_bookmarks` table (the columns the query
touches). `title` is nullable. -/
structure MozBookmark where
  type : Int
  fk : Int
  title : Option String
  dateAdded : Int

/-- A row of Firefox's `moz_places` table (the columns the query touches). -/
structure MozPlace where
  id : Int
  url : String

/-- The rows produced by
`SELECT b.title, p.url FROM moz_bookmarks b JOIN moz_places p ON b.fk =
p.id WHERE b.type = 1 AND b.title IS NOT NULL AND b.title != ''` before
ordering: the inner join as a nested loop with the WHERE filter. -/
def firefox_query (bs : List MozBookmark) (ps : List MozPlace) :
    List (MozBookmark × MozPlace) :=
  bs.flatMap (fun b => ps.filterMap (fun p =>
    if b.fk = p.id ∧ b.type = 1 ∧ b.title ≠ none ∧ b.title ≠ some "" then
      some (b, p)
    else none))

/-- The Firefox branch of `get_browser_bookmarks`: the query's rows ordered
by `b.dateAdded DESC`, projected to (title, url). -/
def get_browser_bookmarks_firefox (bs : List MozBookmark) (ps : List MozPlace) :
    List (String × String) :=
  ((firefox_query bs ps).mergeSort
      (fun x y => decide (y.1.dateAdded ≤ x.1.dateAdded))).map
    (fun bp => (bp.1.title.getD "", bp.2.url))

end Bookmarks

namespace Bookmarks

/-- C6: bookmark extraction returns (title, url) pairs — for Brave,
`get_browser_bookmarks` returns exactly the (name, url) pairs of every
node in the bookmarks JSON tree whose "type" field equals "url" and which
has both "name" and "url" keys, in depth-first traversal order; for
Firefox, it returns exactly the rows of the SQL query over
`moz_bookmarks` joined with `moz_places` restricted to `type = 1` with
non-null, non-empty titles. -/
theorem c6_get_browser_bookmarks :
    (∀ data : JSON, get_browser_bookmarks_brave data = bravePairs data) ∧
    (∀ (bs : List MozBookmark) (ps : List MozPlace) (t u : String),
      (t, u) ∈ get_browser_bookmarks_firefox bs ps ↔
        ∃ b, b ∈ bs ∧ ∃ p, p ∈ ps ∧ b.fk = p.id ∧ b.type = 1 ∧
          b.title = some t ∧ t ≠ "" ∧ p.url = u) := by
  constructor
  · intro data
    rw [get_browser_bookmarks_brave, extract_bookmarks_eq data [], List.nil_append]
  · intro bs ps t u
    unfold get_browser_bookmarks_firefox
    rw [List.mem_map]
    constructor
    · rintro ⟨bp, hmem, heq⟩
      rw [(List.mergeSort_perm _ _).mem_iff] at hmem
      unfold firefox_query at hmem
      rw [List.mem_flatMap] at hmem
      obtain ⟨b, hb, hp⟩ := hmem
      rw [List.mem_filterMap] at hp
      obtain ⟨p, hpmem, hif⟩ := hp
      by_cases hcond : b.fk = p.id ∧ b.type = 1 ∧ b.title ≠ none ∧ b.title ≠ some ""
      · rw [if_pos hcond] at hif
        obtain ⟨h1, h2, h3, h4⟩ := hcond
        have hbp : (b, p) = bp := Option.some.inj hif
        subst hbp
        obtain ⟨s, hs⟩ := Option.ne_none_iff_exists'.mp h3
        have hfst : s = t := by
          have := congrArg Prod.fst heq
          simpa [hs] using this
        subst hfst
        refine ⟨b, hb, p, hpmem, h1, h2, hs, ?_, ?_⟩
        · intro hempty
          exact h4 (hempty ▸ hs)
        · exact congrArg Prod.snd heq
      · rw [if_neg hcond] at hif
        exact absurd hif (by simp)
    · rintro ⟨b, hb, p, hp, h1, h2, h3, h4, h5⟩
      refine ⟨(b, p), ?_, ?_⟩
      · rw [(List.mergeSort_perm _ _).mem_iff]
        unfold firefox_query
        rw [List.mem_flatMap]
        refine ⟨b, hb, List.mem_filterMap.mpr ⟨p, hp, ?_⟩⟩
        rw [if_pos ⟨h1, h2, by simp [h3], by simp [h3, h4]⟩]
      · simp [h3, h5]

end Bookmarks

/-! ### Exit-code behaviour at the error-handling boundary -/

/-- The stream a message is printed to. -/
inductive OutStream where
  | stdout
  | stderr
deriving DecidableEq

/-- The observable outcome of one script run: the process exit status and
the messages printed at the script's error-handling boundary. -/
structure ScriptResult where
  exitCode : Nat
  reports : List (OutStream × String)
deriving DecidableEq

namespace Bookmarks

/-- The distinguishable outcomes of the `try` block in bookmarks.py's
`main`: success, one of the handled exceptions (`FileNotFoundError`,
`sqlite3.Error`, `json.JSONDecodeError`, `ValueError`) with its message,
or `KeyboardInterrupt`. -/
inductive RunOutcome where
  | ok (selected : Option String)
  | handledError (msg : String)
  | interrupted

/-- `main()` of bookmarks.py at its exception boundary: a handled
exception prints `Error: {e}` to stderr and calls `sys.exit(1)`;
`KeyboardInterrupt` prints to stderr and calls `sys.exit(0)`; otherwise
`main` returns and the process exits 0. -/
def main : RunOutcome → ScriptResult
  | RunOutcome.ok _ => ⟨0, []⟩
  | RunOutcome.handledError msg => ⟨1, [(OutStream.stderr, "Error: " ++ msg)]⟩
  | RunOutcome.interrupted => ⟨0, [(OutStream.stderr, "\nOperation cancelled")]⟩

end Bookmarks

namespace FF

/-- ANSI code `CONFIG.colors["error"]`. -/
def colorError : String := "\x1b[31m"

/-- ANSI code `CONFIG.colors["reset"]`. -/
def colorReset : String := "\x1b[0m"

/-- The handled-failure paths of `main` in flake-freshness.py: the flake
file missing, or `find_packages_config`/`load_packages` raising
`FileNotFoundError`/`ValueError`; `proceed` is every run that passes the
validation prologue. -/
inductive RunOutcome where
  | flakeMissing
  | configError (msg : String)
  | proceed

/-- `main(flake, ...)` of flake-freshness.py at its error-handling
boundary: handled failures print a colored message via plain `print`
(stdout) and `return`; the script never calls `sys.exit`, so every
non-raising path exits with status 0. -/
def main (flake : String) : RunOutcome → ScriptResult
  | RunOutcome.flakeMissing =>
    ⟨0, [(OutStream.stdout,
      colorError ++ "Error: flake.nix not found at " ++ flake ++ colorReset)]⟩
  | RunOutcome.configError msg =>
    ⟨0, [(OutStream.stdout, colorError ++ "Error: " ++ msg ++ colorReset)]⟩
  | RunOutcome.proceed => ⟨0, []⟩

end FF

namespace NFH

/-- ANSI code `CONFIG.colors["error"]`. -/
def colorError : String := "\x1b[31m"

/-- ANSI code `CONFIG.colors["info"]`. -/
def colorInfo : String := "\x1b[34m"

/-- ANSI code `CONFIG.colors["reset"]`. -/
def colorReset : String := "\x1b[0m"

/-- The handled-failure paths of `main` in nix_flake_health/main.py, as in
`FF.RunOutcome`. -/
inductive RunOutcome where
  | flakeMissing
  | configError (msg : String)
  | proceed

/-- `main(flake, ...)` of nix_flake_health/main.py at its error-handling
boundary: a missing flake prints two lines to stdout (`Error: ...` and
`Tried: ...`) and returns; config errors print to stdout and return; the
script never calls `sys.exit`, so every non-raising path exits 0. -/
def main (flakePath : String) : RunOutcome → ScriptResult
  | RunOutcome.flakeMissing =>
    ⟨0, [(OutStream.stdout,
        colorError ++ "Error: flake.nix not found at " ++ flakePath ++ colorReset),
      (OutStream.stdout, colorInfo ++ "Tried: " ++ flakePath ++ colorReset)]⟩
  | RunOutcome.configError msg =>
    ⟨0, [(OutStream.stdout, colorError ++ "Error: " ++ msg ++ colorReset)]⟩
  | RunOutcome.proceed => ⟨0, []⟩

end NFH

/-- C3 counterexample: flake-freshness.py on a missing flake file — a
handled failure — exits with status 0 (not 1) and reports the error on
stdout (stderr stays empty), refuting the claim that every script exits 1
on every handled failure with the failure reported to stderr. -/
theorem c3_flake_freshness_exit_counterexample :
    (FF.main "flake.nix" FF.RunOutcome.flakeMissing).exitCode = 0 ∧
    (FF.main "flake.nix" FF.RunOutcome.flakeMissing).exitCode ≠ 1 ∧
    (FF.main "flake.nix" FF.RunOutcome.flakeMissing).reports =
      [(OutStream.stdout,
        "\x1b[31mError: flake.nix not found at flake.nix\x1b[0m")] :=
  ⟨rfl, by decide, rfl⟩

/-- C3 (amended): bookmarks.py exits 0 on success and 1 on every handled
failure, reporting the failure to stderr; but flake-freshness.py and
nix_flake_health/main.py exit 0 on every path, reporting handled failures
(missing flake, config errors) to stdout. -/
theorem c3_exit_codes :
    (∀ sel, (Bookmarks.main (Bookmarks.RunOutcome.ok sel)).exitCode = 0) ∧
    (∀ msg, (Bookmarks.main (Bookmarks.RunOutcome.handledError msg)).exitCode = 1 ∧
      (Bookmarks.main (Bookmarks.RunOutcome.handledError msg)).reports =
        [(OutStream.stderr, "Error: " ++ msg)]) ∧
    (∀ flake r, (FF.main flake r).exitCode = 0) ∧
    (∀ flake r, (NFH.main flake r).exitCode = 0) ∧
    (∀ flake, (FF.main flake FF.RunOutcome.flakeMissing).reports.map Prod.fst =
      [OutStream.stdout]) ∧
    (∀ flake msg,
      (NFH.main flake (NFH.RunOutcome.configError msg)).reports.map Prod.fst =
        [OutStream.stdout]) := by
  refine ⟨fun sel => rfl, fun msg => ⟨rfl, rfl⟩, ?_, ?_, fun flake => rfl,
    fun flake msg => rfl⟩
  · intro flake r
    cases r <;> rfl
  · intro flake r
    cases r <;> rfl

namespace GitUtil

/-- A git subprocess invocation performed for a given repository
directory. -/
inductive GitCmd where
  | status (dir : String)
  | add (dir : String)
  | commit (dir : String)
  | push (dir : String)
deriving DecidableEq

/-- The environment a git_util.py run observes: the directories `fd -td
-HI -g .git` reports, and, per repository, the `git status` output lines,
`os.path.exists`, and the files `fd -H --size +50MB -gE .git` reports. -/
structure GitEnv where
  gitDirs : List String
  statusLines : String → List String
  pathExists : String → Bool
  bigFiles : String → List String

/-- The body of the `push_all_git_dirs` loop for one found directory: run
`git status -s`; when its output has lines, run `git add .`,
`git commit -qm ...`, `git push -q`. -/
def push_all_repo (env : GitEnv) (git_dir : String) : List GitCmd :=
  GitCmd.status git_dir ::
    (if (env.statusLines git_dir).length > 0 then
      [GitCmd.add git_dir, GitCmd.commit git_dir, GitCmd.push git_dir]
    else [])

/-- `push_all_git_dirs()`: iterate the loop body over the directories
found by `fd -td -HI -g .git`. -/
def push_all_git_dirs (env : GitEnv) : List GitCmd :=
  env.gitDirs.flatMap (push_all_repo env)

/-- The body of the `auto_commit` loop for one configured path: skip
missing paths; skip (report only) when `fd` finds files over the 50 MB
limit; otherwise run `git status --porcelain` and, when it reports
changes, `git add .`, `git commit -q -m ...`, `git push -q`. -/
def auto_commit_repo (env : GitEnv) (path : String) : List GitCmd :=
  if env.pathExists path = false then []
  else if env.bigFiles path ≠ [] then []
  else
    GitCmd.status path ::
      (if (env.statusLines path).length = 0 then []
      else [GitCmd.add path, GitCmd.commit path, GitCmd.push path])

/-- `auto_commit(paths)`: iterate the loop body over the configured
paths. -/
def auto_commit (env : GitEnv) (paths : List String) : List GitCmd :=
  paths.flatMap (auto_commit_repo env)

/-- `commit_workflow(commit_message)` on the repository `dir_path`
(the `git rev-parse --show-toplevel` result): when `fd` finds files over
the 50 MB limit, report them and return before any git mutation;
otherwise `git add -A`, `git commit -q -m ...`, `git push -q`, then
`git status -sb`. -/
def commit_workflow (env : GitEnv) (dir_path : String) : List GitCmd :=
  if env.bigFiles dir_path ≠ [] then []
  else
    [GitCmd.add dir_path, GitCmd.commit dir_path, GitCmd.push dir_path,
      GitCmd.status dir_path]

theorem push_all_repo_mem (env : GitEnv) (d : String) (c : GitCmd)
    (h : c ∈ push_all_repo env d) :
    c = GitCmd.status d ∨
      (env.statusLines d ≠ [] ∧
        (c = GitCmd.add d ∨ c = GitCmd.commit d ∨ c = GitCmd.push d)) := by
  unfold push_all_repo at h
  by_cases hc : (env.statusLines d).length > 0
  · rw [if_pos hc] at h
    have hne : env.statusLines d ≠ [] := List.length_pos.mp hc
    simp only [List.mem_cons, List.not_mem_nil, or_false] at h
    rcases h with h | h | h | h
    · exact Or.inl h
    · exact Or.inr ⟨hne, Or.inl h⟩
    · exact Or.inr ⟨hne, Or.inr (Or.inl h)⟩
    · exact Or.inr ⟨hne, Or.inr (Or.inr h)⟩
  · rw [if_neg hc] at h
    simp only [List.mem_cons, List.not_mem_nil, or_false] at h
    exact Or.inl h

theorem auto_commit_repo_mem (env : GitEnv) (p : String) (c : GitCmd)
    (h : c ∈ auto_commit_repo env p) :
    env.pathExists p = true ∧ env.bigFiles p = [] ∧
      (c = GitCmd.status p ∨
        (env.statusLines p ≠ [] ∧
          (c = GitCmd.add p ∨ c = GitCmd.commit p ∨ c = GitCmd.push p))) := by
  unfold auto_commit_repo at h
  by_cases h1 : env.pathExists p = false
  · rw [if_pos h1] at h
    exact absurd h (List.not_mem_nil c)
  · rw [if_neg h1] at h
    by_cases h2 : env.bigFiles p ≠ []
    · rw [if_pos h2] at h
      exact absurd h (List.not_mem_nil c)
    · rw [if_neg h2] at h
      refine ⟨Bool.not_eq_false _ ▸ Bool.of_not_eq_false h1, not_ne_iff.mp h2, ?_⟩
      by_cases h3 : (env.statusLines p).length = 0
      · rw [if_pos h3] at h
        simp only [List.mem_cons, List.not_mem_nil, or_false] at h
        exact Or.inl h
      · rw [if_neg h3] at h
        have hne : env.statusLines p ≠ [] :=
          List.length_pos.mp (Nat.pos_of_ne_zero h3)
        simp only [List.mem_cons, List.not_mem_nil, or_false] at h
        rcases h with h | h | h | h
        · exact Or.inl h
        · exact Or.inr ⟨hne, Or.inl h⟩
        · exact Or.inr ⟨hne, Or.inr (Or.inl h)⟩
        · exact Or.inr ⟨hne, Or.inr (Or.inr h)⟩

end GitUtil

namespace GitUtil

theorem push_all_mutation_mem (env : GitEnv) (dir : String) (c : GitCmd)
    (hc : c = GitCmd.add dir ∨ c = GitCmd.commit dir ∨ c = GitCmd.push dir)
    (hmem : c ∈ push_all_git_dirs env) : env.statusLines dir ≠ [] := by
  obtain ⟨d, hd, hin⟩ := List.mem_flatMap.mp hmem
  rcases push_all_repo_mem env d c hin with h' | ⟨hne, h''⟩
  · rcases hc with rfl | rfl | rfl <;> exact GitCmd.noConfusion h'
  · rcases hc with rfl | rfl | rfl <;> rcases h'' with h'' | h'' | h'' <;>
      first
        | exact GitCmd.noConfusion h''
        | (injection h'' with h0; subst h0; exact hne)

theorem auto_commit_mutation_mem (env : GitEnv) (paths : List String)
    (dir : String) (c : GitCmd)
    (hc : c = GitCmd.add dir ∨ c = GitCmd.commit dir ∨ c = GitCmd.push dir)
    (hmem : c ∈ auto_commit env paths) :
    env.pathExists dir = true ∧ env.bigFiles dir = [] ∧
      env.statusLines dir ≠ [] := by
  obtain ⟨p, hp, hin⟩ := List.mem_flatMap.mp hmem
  obtain ⟨hex, hbig, hcase⟩ := auto_commit_repo_mem env p c hin
  rcases hcase with h' | ⟨hne, h''⟩
  · rcases hc with rfl | rfl | rfl <;> exact GitCmd.noConfusion h'
  · rcases hc with rfl | rfl | rfl <;> rcases h'' with h'' | h'' | h'' <;>
      first
        | exact GitCmd.noConfusion h''
        | (injection h'' with h0; subst h0; exact ⟨hex, hbig, hne⟩)

/-- C7: for every directory found via `fd -td -HI -g .git`,
`push_all_git_dirs` runs `git status` for it, and runs `git add`,
`git commit`, `git push` on it exactly when the status output is
non-empty; a repository whose status output is empty gets no add, commit
or push.  `auto_commit` likewise mutates a repository only when its
status output is non-empty. -/
theorem c7_batch_git_status_gating (env : GitEnv) (paths : List String)
    (dir : String) (h : dir ∈ env.gitDirs) :
    GitCmd.status dir ∈ push_all_git_dirs env ∧
    (env.statusLines dir ≠ [] →
      GitCmd.add dir ∈ push_all_git_dirs env ∧
      GitCmd.commit dir ∈ push_all_git_dirs env ∧
      GitCmd.push dir ∈ push_all_git_dirs env) ∧
    (env.statusLines dir = [] →
      GitCmd.add dir ∉ push_all_git_dirs env ∧
      GitCmd.commit dir ∉ push_all_git_dirs env ∧
      GitCmd.push dir ∉ push_all_git_dirs env) ∧
    (GitCmd.add dir ∈ auto_commit env paths → env.statusLines dir ≠ []) ∧
    (GitCmd.commit dir ∈ auto_commit env paths → env.statusLines dir ≠ []) ∧
    (GitCmd.push dir ∈ auto_commit env paths → env.statusLines dir ≠ []) := by
  refine ⟨?_, ?_, ?_, ?_, ?_, ?_⟩
  · exact List.mem_flatMap.mpr
      ⟨dir, h, by unfold push_all_repo; exact List.mem_cons_self _ _⟩
  · intro hne
    have hlen : (env.statusLines dir).length > 0 := List.length_pos.mpr hne
    refine ⟨?_, ?_, ?_⟩ <;>
      exact List.mem_flatMap.mpr
        ⟨dir, h, by unfold push_all_repo; rw [if_pos hlen]; simp⟩
  · intro hemp
    have hne' : ¬env.statusLines dir ≠ [] := not_ne_iff.mpr hemp
    exact ⟨fun hm => hne' (push_all_mutation_mem env dir _ (Or.inl rfl) hm),
      fun hm => hne' (push_all_mutation_mem env dir _ (Or.inr (Or.inl rfl)) hm),
      fun hm => hne' (push_all_mutation_mem env dir _ (Or.inr (Or.inr rfl)) hm)⟩
  · exact fun hm =>
      (auto_commit_mutation_mem env paths dir _ (Or.inl rfl) hm).2.2
  · exact fun hm =>
      (auto_commit_mutation_mem env paths dir _ (Or.inr (Or.inl rfl)) hm).2.2
  · exact fun hm =>
      (auto_commit_mutation_mem env paths dir _ (Or.inr (Or.inr rfl)) hm).2.2

/-- A concrete environment for the git helpers: `clean.git` has empty
status output, `dirty.git` has one changed file; no big files. -/
def envW : GitEnv where
  gitDirs := ["clean.git", "dirty.git"]
  statusLines := fun d => if d = "dirty.git" then ["M file"] else []
  pathExists := fun _ => true
  bigFiles := fun _ => []

/-- C7 witness: in `envW`, both repositories get a `git status`, the dirty
one gets a `git add`, and the clean one gets none. -/
theorem c7_batch_git_status_gating_witness :
    GitCmd.status "dirty.git" ∈ push_all_git_dirs envW ∧
    GitCmd.add "dirty.git" ∈ push_all_git_dirs envW ∧
    GitCmd.status "clean.git" ∈ push_all_git_dirs envW ∧
    GitCmd.add "clean.git" ∉ push_all_git_dirs envW := by
  obtain ⟨hs, hpos, _, _, _, _⟩ :=
    c7_batch_git_status_gating envW ["clean.git", "dirty.git"] "dirty.git"
      (by decide)
  obtain ⟨hs2, _, hneg, _, _, _⟩ :=
    c7_batch_git_status_gating envW ["clean.git", "dirty.git"] "clean.git"
      (by decide)
  exact ⟨hs, (hpos (by decide)).1, hs2, (hneg (by decide)).1⟩

/-- C10: when `fd` reports files over the 50 MB limit for a repository,
`auto_commit` runs no `git add`, `git commit` or `git push` for it, and
`commit_workflow` performs no git invocation at all (the large files are
only reported). -/
theorem c10_big_files_block_mutations (env : GitEnv) (paths : List String)
    (dir : String) (h : env.bigFiles dir ≠ []) :
    GitCmd.add dir ∉ auto_commit env paths ∧
    GitCmd.commit dir ∉ auto_commit env paths ∧
    GitCmd.push dir ∉ auto_commit env paths ∧
    commit_workflow env dir = [] := by
  refine ⟨?_, ?_, ?_, ?_⟩
  · exact fun hm =>
      h (auto_commit_mutation_mem env paths dir _ (Or.inl rfl) hm).2.1
  · exact fun hm =>
      h (auto_commit_mutation_mem env paths dir _ (Or.inr (Or.inl rfl)) hm).2.1
  · exact fun hm =>
      h (auto_commit_mutation_mem env paths dir _ (Or.inr (Or.inr rfl)) hm).2.1
  · unfold commit_workflow
    rw [if_pos h]

/-- A concrete environment in which `repo.git` holds a file over the 50 MB
limit while also having uncommitted changes. -/
def envB : GitEnv where
  gitDirs := ["repo.git"]
  statusLines := fun _ => ["M f"]
  pathExists := fun _ => true
  bigFiles := fun d => if d = "repo.git" then ["video.mp4"] else []

/-- C10 witness: in `envB`, `auto_commit` performs no `git add` for
`repo.git` and `commit_workflow` performs no git invocation. -/
theorem c10_big_files_block_mutations_witness :
    GitCmd.add "repo.git" ∉ auto_commit envB ["repo.git"] ∧
    commit_workflow envB "repo.git" = [] := by
  obtain ⟨ha, _, _, hw⟩ :=
    c10_big_files_block_mutations envB ["repo.git"] "repo.git" (by decide)
  exact ⟨ha, hw⟩

end GitUtil
